import Mathlib

/-!
Verification of the structurehub sensor-ingestion core against its
specification.  The Python sources are shallowly embedded:

* `monitor/decode_payload.py` — the multi-version payload decoder.  Byte
  buffers are `List Nat` (each element a byte value).  Python floats are
  modelled as exact rationals (`ℚ`); the scaled integer fields are divided
  by 10 or 100 exactly.  A `struct.unpack` / `struct.unpack_from` call that
  would raise on an out-of-range read is modelled as `Except.error ()`, so
  "the decoder never raises" is the statement that `decode_payload` never
  returns `Except.error`.
* `monitor/battery.py` — the piecewise-linear battery curve over `ℚ`;
  Python `int(x)` truncation toward zero is modelled by `pytrunc`.
* `monitor/management/commands/ble_worker.py` — the ingestion pipeline.
  The insertion-ordered Python dict `last_seq_seen` is an association list
  (`List (String × Nat)`); `dict.pop(next(iter(d)))` removes the head.
  The bounded `asyncio.Queue` is a FIFO list; the storage sink
  (`Reading.objects.bulk_create` inside `transaction.atomic`) is an
  explicit parameter `sink : List Row → Except String Unit`.
-/

/-! ## Payload decoder (`monitor/decode_payload.py`) -/

def COMPANY_ID : Nat := 0xFFFF

def PROTOCOL_V2 : Nat := 0x0002

def PROTOCOL_V3A : Nat := 0x0003

def PROTOCOL_V4 : Nat := 0x0004

-- struct.calcsize("<H H h H H H H H I I") = 8*2 + 2*4 = 24
def _LEN_V2 : Nat := 24

-- struct.calcsize("<H H h H H H H H H H B B H h")
def _LEN_V3A : Nat := 26

-- struct.calcsize("<H B h H H H H H H H B B H h")  (source name: _LEN_V4_NOPREFIX)
def _LEN_V4_NOPFX : Nat := 25

-- struct.calcsize("<H H B h H H H H H H H B B H h")  (source name: _LEN_V4_PREFIXED)
def _LEN_V4_PFXD : Nat := 27

/-- Little-endian value of `n` bytes of `mfg` starting at `off`
(missing bytes read as 0; callers guard bounds). -/
def leBytes (mfg : List Nat) (off : Nat) : Nat → Nat
  | 0 => 0
  | n + 1 => mfg.getD off 0 + 256 * leBytes mfg (off + 1) n

/-- Two's-complement reading of a 16-bit field (struct format `h`). -/
def toI16 (n : Nat) : Int :=
  if n % 65536 < 32768 then ((n % 65536 : Nat) : Int)
  else ((n % 65536 : Nat) : Int) - 65536

/-- `struct.unpack_from("<H", mfg, off)`: raises (models as error) unless
`off + 2` bytes are available. -/
def unpack_from_H (mfg : List Nat) (off : Nat) : Except Unit Nat :=
  if off + 2 ≤ mfg.length then .ok (leBytes mfg off 2) else .error ()

structure DecodedV2 where
  protocol : Nat
  temp_c : ℚ
  hum_pct : ℚ
  press_hpa : ℚ
  batt_mv : Nat
  flags : Nat
  seq : Nat
  motion0 : Nat
  motion1 : Nat
  deriving DecidableEq

structure DecodedV3A where
  protocol : Nat
  temp_c : ℚ
  hum_pct : ℚ
  press_hpa : ℚ
  batt_mv : Nat
  flags : Nat
  seq : Nat
  motion0 : Nat
  motion1 : Nat
  batt_pct : Nat
  uptime_min : Nat
  dew_point_c : ℚ
  deriving DecidableEq

structure DecodedV4 where
  protocol : Nat
  location : Nat
  temp_c : ℚ
  hum_pct : ℚ
  press_hpa : ℚ
  batt_mv : Nat
  flags : Nat
  seq : Nat
  motion0 : Nat
  motion1 : Nat
  batt_pct : Nat
  uptime_min : Nat
  dew_point_c : ℚ
  deriving DecidableEq

inductive DecodedAny where
  | v2 : DecodedV2 → DecodedAny
  | v3a : DecodedV3A → DecodedAny
  | v4 : DecodedV4 → DecodedAny
  deriving DecidableEq

/-- `struct.unpack(_FMT_V4_NOPREFIX, ...)` at offset `base` (0 unprefixed,
2 when a company-id prefix is skipped) plus the field scaling and the
location clamp of the two V4 branches of `decode_payload`.  `unpack`
demands the exact byte count, else it raises. -/
def v4record (mfg : List Nat) (base : Nat) : DecodedV4 :=
  let location := leBytes mfg (base + 2) 1
  { protocol := leBytes mfg base 2
    location := if location > 3 then 3 else location
    temp_c := (toI16 (leBytes mfg (base + 3) 2) : ℚ) / 100
    hum_pct := (leBytes mfg (base + 5) 2 : ℚ) / 100
    press_hpa := (leBytes mfg (base + 7) 2 : ℚ) / 10
    batt_mv := leBytes mfg (base + 9) 2
    flags := leBytes mfg (base + 11) 2
    seq := leBytes mfg (base + 13) 2
    motion0 := leBytes mfg (base + 15) 2
    motion1 := leBytes mfg (base + 17) 2
    batt_pct := leBytes mfg (base + 19) 1
    uptime_min := leBytes mfg (base + 21) 2
    dew_point_c := (toI16 (leBytes mfg (base + 23) 2) : ℚ) / 100 }

def unpackV4 (mfg : List Nat) (base : Nat) : Except Unit DecodedV4 :=
  if mfg.length = base + 25 then .ok (v4record mfg base) else .error ()

/-- `struct.unpack(_FMT_V2, ...)` plus field scaling (the V2 branch). -/
def v2record (mfg : List Nat) : DecodedV2 :=
  { protocol := leBytes mfg 2 2
    temp_c := (toI16 (leBytes mfg 4 2) : ℚ) / 100
    hum_pct := (leBytes mfg 6 2 : ℚ) / 100
    press_hpa := (leBytes mfg 8 2 : ℚ) / 10
    batt_mv := leBytes mfg 10 2
    flags := leBytes mfg 12 2
    seq := leBytes mfg 14 2
    motion0 := leBytes mfg 16 4
    motion1 := leBytes mfg 20 4 }

def unpackV2 (mfg : List Nat) : Except Unit DecodedV2 :=
  if mfg.length = 24 then .ok (v2record mfg) else .error ()

/-- `struct.unpack(_FMT_V3A, ...)` plus field scaling (the V3A branch). -/
def v3arecord (mfg : List Nat) : DecodedV3A :=
  { protocol := leBytes mfg 2 2
    temp_c := (toI16 (leBytes mfg 4 2) : ℚ) / 100
    hum_pct := (leBytes mfg 6 2 : ℚ) / 100
    press_hpa := (leBytes mfg 8 2 : ℚ) / 10
    batt_mv := leBytes mfg 10 2
    flags := leBytes mfg 12 2
    seq := leBytes mfg 14 2
    motion0 := leBytes mfg 16 2
    motion1 := leBytes mfg 18 2
    batt_pct := leBytes mfg 20 1
    uptime_min := leBytes mfg 22 2
    dew_point_c := (toI16 (leBytes mfg 24 2) : ℚ) / 100 }

def unpackV3A (mfg : List Nat) : Except Unit DecodedV3A :=
  if mfg.length = 26 then .ok (v3arecord mfg) else .error ()

/-- The part of `decode_payload` after the V4-unprefixed attempt: requires
at least companyId + protocol, reads both with `unpack_from("<H H")`,
rejects a foreign company id, then tries V4 prefixed, V2, V3A in order. -/
def decode_with_company (mfg : List Nat) : Except Unit (Option DecodedAny) :=
  if mfg.length < 4 then .ok none
  else
    match unpack_from_H mfg 0, unpack_from_H mfg 2 with
    | .error e, _ => .error e
    | _, .error e => .error e
    | .ok company, .ok proto =>
      if company ≠ COMPANY_ID then .ok none
      else if proto = PROTOCOL_V4 ∧ mfg.length = _LEN_V4_PFXD then
        match unpackV4 mfg 2 with
        | .error e => .error e
        | .ok d => .ok (some (DecodedAny.v4 d))
      else if proto = PROTOCOL_V2 then
        if mfg.length ≠ _LEN_V2 then .ok none
        else
          match unpackV2 mfg with
          | .error e => .error e
          | .ok d => .ok (some (DecodedAny.v2 d))
      else if proto = PROTOCOL_V3A then
        if mfg.length ≠ _LEN_V3A then .ok none
        else
          match unpackV3A mfg with
          | .error e => .error e
          | .ok d => .ok (some (DecodedAny.v3a d))
      else .ok none

/-- `decode_payload(mfg)`.  `Except.ok none` is Python's `return None`
(a decode failure); `Except.error ()` marks a read that would raise. -/
def decode_payload (mfg : List Nat) : Except Unit (Option DecodedAny) :=
  if mfg.length < 2 then .ok none
  else if mfg.length = _LEN_V4_NOPFX then
    match unpack_from_H mfg 0 with
    | .error e => .error e
    | .ok proto =>
      if proto = PROTOCOL_V4 then
        match unpackV4 mfg 0 with
        | .error e => .error e
        | .ok d => .ok (some (DecodedAny.v4 d))
      else decode_with_company mfg
  else decode_with_company mfg

/-! ## Battery curve mapper (`monitor/battery.py`) -/

def clamp (v lo hi : ℚ) : ℚ := max lo (min hi v)

def lerpQ (a b t : ℚ) : ℚ := a + (b - a) * t

-- Same curve as M5Battery.h (source name: _CURVE)
def _CURVE : List (ℚ × ℚ) :=
  [(4.20, 100), (4.10, 90), (4.00, 80), (3.92, 70), (3.85, 60), (3.79, 50),
   (3.74, 40), (3.70, 30), (3.65, 20), (3.55, 10), (3.40, 5), (3.30, 2),
   (3.20, 0)]

/-- Python `int(x)`: truncation toward zero. -/
def pytrunc (q : ℚ) : ℤ := if 0 ≤ q then ⌊q⌋ else ⌈q⌉

/-- The `for i in range(len(_CURVE) - 1)` loop of `voltage_to_percent`:
return the interpolated percentage of the first bracketing segment,
`none` when no segment matches. -/
def curveScan : List (ℚ × ℚ) → ℚ → Option ℚ
  | a :: b :: rest, v =>
    if v ≤ a.1 ∧ b.1 ≤ v then
      some (lerpQ a.2 b.2 ((a.1 - v) / (a.1 - b.1)))
    else curveScan (b :: rest) v
  | _, _ => none

def voltage_to_percent (v : ℚ) : ℤ :=
  let v := clamp v 3.20 4.20
  match curveScan _CURVE v with
  | some pf => max 0 (min 100 (pytrunc (pf + 0.5)))
  | none => if 4.20 ≤ v then 100 else 0

/-- Anchors descend strictly in voltage and weakly in percentage along
the list — the shape of `_CURVE` the monotonicity argument uses. -/
def DescChain : List (ℚ × ℚ) → Prop
  | a :: b :: rest => b.1 < a.1 ∧ b.2 ≤ a.2 ∧ DescChain (b :: rest)
  | _ => True

/-- Last anchor of the list, `a` when the list is empty. -/
def lastD (a : ℚ × ℚ) : List (ℚ × ℚ) → ℚ × ℚ
  | [] => a
  | b :: rest => lastD b rest

/-! ## Ingestion pipeline (`ble_worker.py`) -/

/-- A flattened record as built by `on_detect` (the `row` dict); the
variant-conditional extras are `Option`s, mirroring `row.update`. -/
structure Row where
  source : String
  rssi : Int
  temp_c : ℚ
  hum_pct : ℚ
  press_hpa : ℚ
  batt_mv : Nat
  flags : Nat
  seq : Nat
  motion0 : Nat
  motion1 : Nat
  batt_pct : Option Nat
  uptime_min : Option Nat
  dew_point_c : Option ℚ
  location : Option Nat
  deriving DecidableEq

def DecodedAny.seq : DecodedAny → Nat
  | .v2 d => d.seq
  | .v3a d => d.seq
  | .v4 d => d.seq

def DecodedAny.temp_c : DecodedAny → ℚ
  | .v2 d => d.temp_c
  | .v3a d => d.temp_c
  | .v4 d => d.temp_c

def DecodedAny.hum_pct : DecodedAny → ℚ
  | .v2 d => d.hum_pct
  | .v3a d => d.hum_pct
  | .v4 d => d.hum_pct

def DecodedAny.press_hpa : DecodedAny → ℚ
  | .v2 d => d.press_hpa
  | .v3a d => d.press_hpa
  | .v4 d => d.press_hpa

def DecodedAny.batt_mv : DecodedAny → Nat
  | .v2 d => d.batt_mv
  | .v3a d => d.batt_mv
  | .v4 d => d.batt_mv

def DecodedAny.flags : DecodedAny → Nat
  | .v2 d => d.flags
  | .v3a d => d.flags
  | .v4 d => d.flags

def DecodedAny.motion0 : DecodedAny → Nat
  | .v2 d => d.motion0
  | .v3a d => d.motion0
  | .v4 d => d.motion0

def DecodedAny.motion1 : DecodedAny → Nat
  | .v2 d => d.motion1
  | .v3a d => d.motion1
  | .v4 d => d.motion1

/-- The `row` dict assembled by `on_detect`, including the
`isinstance`-guarded extras. -/
def makeRow (source : String) (rssi : Option Int) (d : DecodedAny) : Row :=
  { source := source
    rssi := rssi.getD 0
    temp_c := d.temp_c
    hum_pct := d.hum_pct
    press_hpa := d.press_hpa
    batt_mv := d.batt_mv
    flags := d.flags
    seq := d.seq
    motion0 := d.motion0
    motion1 := d.motion1
    batt_pct := match d with
      | .v3a x => some x.batt_pct
      | .v4 x => some x.batt_pct
      | .v2 _ => none
    uptime_min := match d with
      | .v3a x => some x.uptime_min
      | .v4 x => some x.uptime_min
      | .v2 _ => none
    dew_point_c := match d with
      | .v3a x => some x.dew_point_c
      | .v4 x => some x.dew_point_c
      | .v2 _ => none
    location := match d with
      | .v4 x => some x.location
      | _ => none }

/-- Lookup in the insertion-ordered dict `last_seq_seen`. -/
def dictGet : List (String × Nat) → String → Option Nat
  | [], _ => none
  | (k, v) :: rest, s => if k = s then some v else dictGet rest s

/-- Python dict assignment `d[s] = q`: overwrite in place when the key is
present, append otherwise. -/
def dictSet : List (String × Nat) → String → Nat → List (String × Nat)
  | [], s, q => [(s, q)]
  | (k, v) :: rest, s, q =>
    if k = s then (k, q) :: rest else (k, v) :: dictSet rest s q

/-- `_remember_seq`: evict the oldest-inserted entry
(`pop(next(iter(d)))` = drop the head) only when the size strictly
exceeds `max_seq_cache`, then insert. -/
def remember_seq (max_seq_cache : Nat) (d : List (String × Nat))
    (source : String) (seq : Nat) : List (String × Nat) :=
  dictSet (if max_seq_cache < d.length then d.tail else d) source seq

/-- `_is_duplicate`: `prev is not None and prev == seq`. -/
def is_duplicate (d : List (String × Nat)) (source : String) (seq : Nat) :
    Bool :=
  match dictGet d source with
  | none => false
  | some prev => prev == seq

/-- The mutable state closed over by `_run`: the dedup dict, the bounded
queue's contents (FIFO, head = oldest), the batch buffer and the
`last_flush` timestamp. -/
structure WorkerState where
  last_seq_seen : List (String × Nat)
  queue : List Row
  buffer : List Row
  last_flush : ℚ
  deriving DecidableEq

/-- Result of one `flush_buffer_if_needed` call: the new state, the rows
submitted to the sink (at most one bulk write), and the error written to
stderr when the write raised. -/
structure FlushOutcome where
  st : WorkerState
  attempted : Option (List Row)
  reported : Option String
  deriving DecidableEq

/-- `flush_buffer_if_needed(force)` at monotonic time `now`.  The bulk
write is the call `sink rows`; its exception is caught and reported, and
`buffer`/`last_flush` were already reset before the write. -/
def flush_buffer_if_needed (batch_size : Nat) (flush_interval : ℚ)
    (sink : List Row → Except String Unit) (force : Bool) (now : ℚ)
    (st : WorkerState) : FlushOutcome :=
  if st.buffer = [] then ⟨{ st with last_flush := now }, none, none⟩
  else if force = false ∧ st.buffer.length < batch_size ∧
      now - st.last_flush < flush_interval then ⟨st, none, none⟩
  else
    let rows := st.buffer
    let st' : WorkerState := { st with buffer := [], last_flush := now }
    match sink rows with
    | .ok _ => ⟨st', some rows, none⟩
    | .error e => ⟨st', some rows, some e⟩

/-- One iteration of the `db_writer` loop: either a queued item arrives
(append it to the batch, then check flush conditions) or the
`wait_for` timeout fires (check flush conditions only). -/
def db_writer_step (batch_size : Nat) (flush_interval : ℚ)
    (sink : List Row → Except String Unit) (now : ℚ) (st : WorkerState) :
    FlushOutcome :=
  match st.queue with
  | [] => flush_buffer_if_needed batch_size flush_interval sink false now st
  | item :: rest =>
    flush_buffer_if_needed batch_size flush_interval sink false now
      { st with queue := rest, buffer := st.buffer ++ [item] }

-- (_COMPANY_ID & 0xFFFF).to_bytes(2, "little")  (source name: _COMPANY_PREFIX)
def COMPANY_PFX_BYTES : List Nat := [0xFF, 0xFF]

def decodeOpt (mfg : List Nat) : Option DecodedAny :=
  match decode_payload mfg with
  | .ok r => r
  | .error _ => none

/-- `_decode_from_mfg_value`: try the raw buffer, then the buffer with the
synthetic 2-byte company-id prefix. -/
def decode_from_mfg_value (raw : List Nat) : Option DecodedAny × Nat :=
  match decodeOpt raw with
  | some d => (some d, raw.length)
  | none =>
    let pfxd := COMPANY_PFX_BYTES ++ raw
    match decodeOpt pfxd with
    | some d => (some d, pfxd.length)
    | none => (none, raw.length)

/-- One advertisement event as seen by `on_detect`: `md` is
`manufacturer_data.get(0xFFFF)`, `address` the `_pick_address` result
(empty string when absent), `rssi` optional. -/
structure AdvEvent where
  address : String
  rssi : Option Int
  md : Option (List Nat)
  deriving DecidableEq

/-- `on_detect` (the producer callback).  `queue.put_nowait` raises
`QueueFull` when `0 < maxsize ∧ maxsize ≤ qsize`; the record is then
dropped (the dedup cache was already updated). -/
def on_detect (queue_max max_seq_cache : Nat) (ev : AdvEvent)
    (st : WorkerState) : WorkerState :=
  match ev.md with
  | none => st
  | some mfg =>
    if mfg = [] then st
    else if ev.address = "" then st
    else
      match (decode_from_mfg_value mfg).1 with
      | none => st
      | some decoded =>
        let seq := decoded.seq
        if is_duplicate st.last_seq_seen ev.address seq then st
        else
          let cache := remember_seq max_seq_cache st.last_seq_seen
            ev.address seq
          let row := makeRow ev.address ev.rssi decoded
          if 0 < queue_max ∧ queue_max ≤ st.queue.length then
            { st with last_seq_seen := cache }
          else
            { st with last_seq_seen := cache, queue := st.queue ++ [row] }

/-- `flush_interval = max(0.05, flush_ms / 1000.0)` from `_run`; the same
value is the `db_writer` wait timeout. -/
def flush_interval_of (flush_ms : ℤ) : ℚ := max 0.05 ((flush_ms : ℚ) / 1000)

/-! Concrete test data: a 25-byte unprefixed V4 advertisement whose fields
are all zero except the leading protocol tag 0x0004, and small pipeline
states built from it. -/

def sampleV4 : List Nat := 4 :: 0 :: List.replicate 23 0

def sampleEvent : AdvEvent := ⟨"AA", none, some sampleV4⟩

def emptyState : WorkerState := ⟨[], [], [], 0⟩

def sampleRow : Row := makeRow "AA" none (DecodedAny.v4 (v4record sampleV4 0))

def failSink : List Row → Except String Unit := fun _ => .error "db error"

/-! ## Decoder branch lemmas -/

theorem unpack_from_H_ok (mfg : List Nat) (off : Nat)
    (h : off + 2 ≤ mfg.length) :
    unpack_from_H mfg off = .ok (leBytes mfg off 2) := by
  simp [unpack_from_H, h]

theorem dwc_short (mfg : List Nat) (h : mfg.length < 4) :
    decode_with_company mfg = .ok none := by
  simp [decode_with_company, h]

theorem dwc_badco (mfg : List Nat) (h4 : ¬ mfg.length < 4)
    (hc : leBytes mfg 0 2 ≠ COMPANY_ID) :
    decode_with_company mfg = .ok none := by
  rw [decode_with_company, if_neg h4, unpack_from_H_ok mfg 0 (by omega),
    unpack_from_H_ok mfg 2 (by omega)]
  simp [hc]

theorem dwc_v4 (mfg : List Nat) (h4 : ¬ mfg.length < 4)
    (hc : leBytes mfg 0 2 = COMPANY_ID)
    (hp : leBytes mfg 2 2 = PROTOCOL_V4) (hl : mfg.length = 27) :
    decode_with_company mfg = .ok (some (DecodedAny.v4 (v4record mfg 2))) := by
  rw [decode_with_company, if_neg h4, unpack_from_H_ok mfg 0 (by omega),
    unpack_from_H_ok mfg 2 (by omega)]
  simp [hc, hp, hl, _LEN_V4_PFXD, PROTOCOL_V4, unpackV4]

theorem dwc_v4_badlen (mfg : List Nat) (h4 : ¬ mfg.length < 4)
    (hc : leBytes mfg 0 2 = COMPANY_ID)
    (hp : leBytes mfg 2 2 = PROTOCOL_V4) (hl : mfg.length ≠ 27) :
    decode_with_company mfg = .ok none := by
  rw [decode_with_company, if_neg h4, unpack_from_H_ok mfg 0 (by omega),
    unpack_from_H_ok mfg 2 (by omega)]
  simp [hc, hp, hl, _LEN_V4_PFXD, PROTOCOL_V4, PROTOCOL_V2, PROTOCOL_V3A]

theorem dwc_v2 (mfg : List Nat) (h4 : ¬ mfg.length < 4)
    (hc : leBytes mfg 0 2 = COMPANY_ID)
    (hp : leBytes mfg 2 2 = PROTOCOL_V2) (hl : mfg.length = 24) :
    decode_with_company mfg = .ok (some (DecodedAny.v2 (v2record mfg))) := by
  rw [decode_with_company, if_neg h4, unpack_from_H_ok mfg 0 (by omega),
    unpack_from_H_ok mfg 2 (by omega)]
  simp [hc, hp, hl, _LEN_V4_PFXD, _LEN_V2, PROTOCOL_V4, PROTOCOL_V2, unpackV2]

theorem dwc_v2_badlen (mfg : List Nat) (h4 : ¬ mfg.length < 4)
    (hc : leBytes mfg 0 2 = COMPANY_ID)
    (hp : leBytes mfg 2 2 = PROTOCOL_V2) (hl : mfg.length ≠ 24) :
    decode_with_company mfg = .ok none := by
  rw [decode_with_company, if_neg h4, unpack_from_H_ok mfg 0 (by omega),
    unpack_from_H_ok mfg 2 (by omega)]
  simp [hc, hp, hl, _LEN_V4_PFXD, _LEN_V2, PROTOCOL_V4, PROTOCOL_V2]

theorem dwc_v3a (mfg : List Nat) (h4 : ¬ mfg.length < 4)
    (hc : leBytes mfg 0 2 = COMPANY_ID)
    (hp : leBytes mfg 2 2 = PROTOCOL_V3A) (hl : mfg.length = 26) :
    decode_with_company mfg = .ok (some (DecodedAny.v3a (v3arecord mfg))) := by
  rw [decode_with_company, if_neg h4, unpack_from_H_ok mfg 0 (by omega),
    unpack_from_H_ok mfg 2 (by omega)]
  simp [hc, hp, hl, _LEN_V4_PFXD, _LEN_V2, _LEN_V3A, PROTOCOL_V4, PROTOCOL_V2,
    PROTOCOL_V3A, unpackV3A]

theorem dwc_v3a_badlen (mfg : List Nat) (h4 : ¬ mfg.length < 4)
    (hc : leBytes mfg 0 2 = COMPANY_ID)
    (hp : leBytes mfg 2 2 = PROTOCOL_V3A) (hl : mfg.length ≠ 26) :
    decode_with_company mfg = .ok none := by
  rw [decode_with_company, if_neg h4, unpack_from_H_ok mfg 0 (by omega),
    unpack_from_H_ok mfg 2 (by omega)]
  simp [hc, hp, hl, _LEN_V4_PFXD, _LEN_V2, _LEN_V3A, PROTOCOL_V4, PROTOCOL_V2,
    PROTOCOL_V3A]

theorem dwc_unknown (mfg : List Nat) (h4 : ¬ mfg.length < 4)
    (hc : leBytes mfg 0 2 = COMPANY_ID)
    (hp2 : leBytes mfg 2 2 ≠ PROTOCOL_V2)
    (hp3 : leBytes mfg 2 2 ≠ PROTOCOL_V3A)
    (hp4 : leBytes mfg 2 2 ≠ PROTOCOL_V4) :
    decode_with_company mfg = .ok none := by
  rw [decode_with_company, if_neg h4, unpack_from_H_ok mfg 0 (by omega),
    unpack_from_H_ok mfg 2 (by omega)]
  simp [hc, hp2, hp3, hp4]

theorem dp_short (mfg : List Nat) (h : mfg.length < 2) :
    decode_payload mfg = .ok none := by
  simp [decode_payload, h]

theorem dp_25_v4 (mfg : List Nat) (h : mfg.length = 25)
    (hp : leBytes mfg 0 2 = PROTOCOL_V4) :
    decode_payload mfg = .ok (some (DecodedAny.v4 (v4record mfg 0))) := by
  rw [decode_payload, if_neg (by omega), if_pos (by simp [h, _LEN_V4_NOPFX]),
    unpack_from_H_ok mfg 0 (by omega)]
  simp [hp, unpackV4, h, PROTOCOL_V4]

theorem dp_25_nov4 (mfg : List Nat) (h : mfg.length = 25)
    (hp : leBytes mfg 0 2 ≠ PROTOCOL_V4) :
    decode_payload mfg = decode_with_company mfg := by
  rw [decode_payload, if_neg (by omega), if_pos (by simp [h, _LEN_V4_NOPFX]),
    unpack_from_H_ok mfg 0 (by omega)]
  simp [hp]

theorem dp_other (mfg : List Nat) (h2 : ¬ mfg.length < 2)
    (h25 : mfg.length ≠ 25) :
    decode_payload mfg = decode_with_company mfg := by
  rw [decode_payload, if_neg h2, if_neg (by simp [h25, _LEN_V4_NOPFX])]

/-! ## Claims about the decoder -/

/-- Claim C5: `decode_payload` is total on arbitrary byte buffers — for
every input (empty, truncated, or any length) it returns `.ok` (either a
decoded reading or the `none` decode failure) and never reaches an
unguarded read (`Except.error`): every field extraction is guarded by an
exact length check. -/
theorem decode_payload_total (mfg : List Nat) :
    ∃ r, decode_payload mfg = .ok r := by
  by_cases h2 : mfg.length < 2
  · exact ⟨none, dp_short mfg h2⟩
  · have hdwc : ∃ r, decode_with_company mfg = .ok r := by
      by_cases h4 : mfg.length < 4
      · exact ⟨none, dwc_short mfg h4⟩
      · by_cases hc : leBytes mfg 0 2 = COMPANY_ID
        · by_cases hp4 : leBytes mfg 2 2 = PROTOCOL_V4
          · by_cases hl : mfg.length = 27
            · exact ⟨_, dwc_v4 mfg h4 hc hp4 hl⟩
            · exact ⟨none, dwc_v4_badlen mfg h4 hc hp4 hl⟩
          · by_cases hp2 : leBytes mfg 2 2 = PROTOCOL_V2
            · by_cases hl : mfg.length = 24
              · exact ⟨_, dwc_v2 mfg h4 hc hp2 hl⟩
              · exact ⟨none, dwc_v2_badlen mfg h4 hc hp2 hl⟩
            · by_cases hp3 : leBytes mfg 2 2 = PROTOCOL_V3A
              · by_cases hl : mfg.length = 26
                · exact ⟨_, dwc_v3a mfg h4 hc hp3 hl⟩
                · exact ⟨none, dwc_v3a_badlen mfg h4 hc hp3 hl⟩
              · exact ⟨none, dwc_unknown mfg h4 hc hp2 hp3 hp4⟩
        · exact ⟨none, dwc_badco mfg h4 hc⟩
    by_cases h25 : mfg.length = 25
    · by_cases hp : leBytes mfg 0 2 = PROTOCOL_V4
      · exact ⟨_, dp_25_v4 mfg h25 hp⟩
      · rw [dp_25_nov4 mfg h25 hp]; exact hdwc
    · rw [dp_other mfg h2 h25]; exact hdwc

/-- Claim C1 counterexample: the claim fixes the variant-2 length at 26
bytes, but `struct.calcsize("<H H h H H H H H I I")` is 24 — a 26-byte
buffer with company id 0xFFFF and tag 0x0002 is a decode failure, while
a 24-byte one (a length the claim calls a failure) decodes as
variant 2. -/
theorem decode_v2_len26_refuted :
    decode_payload (255 :: 255 :: 2 :: 0 :: List.replicate 22 0) =
      .ok none ∧
    (∃ r, decode_payload (255 :: 255 :: 2 :: 0 :: List.replicate 20 0) =
      .ok (some (DecodedAny.v2 r))) := by
  constructor
  · rw [dp_other _ (by decide) (by decide)]
    exact dwc_v2_badlen _ (by decide) (by decide) (by decide) (by decide)
  · refine ⟨v2record (255 :: 255 :: 2 :: 0 :: List.replicate 20 0), ?_⟩
    rw [dp_other _ (by decide) (by decide)]
    exact dwc_v2 _ (by decide) (by decide) (by decide) (by decide)

/-- Claim C1 (amended): for a buffer whose leading little-endian 16-bit
word is the company-id sentinel 0xFFFF and whose second word is the
protocol tag 0x0002, `decode_payload` yields a variant-2 reading exactly
when the buffer is 24 bytes long (`struct.calcsize` of the V2 format),
and yields the decode-failure value `none` at every other length. -/
theorem decode_v2_iff_len24 (mfg : List Nat)
    (hc : leBytes mfg 0 2 = COMPANY_ID)
    (hp : leBytes mfg 2 2 = PROTOCOL_V2) :
    ((∃ r, decode_payload mfg = .ok (some (DecodedAny.v2 r))) ↔
      mfg.length = 24) ∧
    (mfg.length ≠ 24 → decode_payload mfg = .ok none) := by
  have hc4 : leBytes mfg 0 2 ≠ PROTOCOL_V4 := by
    rw [hc]; simp [COMPANY_ID, PROTOCOL_V4]
  by_cases hl : mfg.length = 24
  · have h2 : ¬ mfg.length < 2 := by omega
    have h25 : mfg.length ≠ 25 := by omega
    rw [dp_other mfg h2 h25, dwc_v2 mfg (by omega) hc hp hl]
    exact ⟨by simp [hl], by simp [hl]⟩
  · have hnone : decode_payload mfg = .ok none := by
      by_cases h2 : mfg.length < 2
      · exact dp_short mfg h2
      · by_cases h25 : mfg.length = 25
        · rw [dp_25_nov4 mfg h25 hc4]
          exact dwc_v2_badlen mfg (by omega) hc hp hl
        · rw [dp_other mfg h2 h25]
          by_cases h4 : mfg.length < 4
          · exact dwc_short mfg h4
          · exact dwc_v2_badlen mfg h4 hc hp hl
    rw [hnone]
    exact ⟨by simp [hl], fun _ => rfl⟩

/-- Claim C1 (amended) witness: a concrete 24-byte buffer with company id
0xFFFF and protocol tag 0x0002. -/
theorem decode_v2_iff_len24_witness :
    ((∃ r, decode_payload (255 :: 255 :: 2 :: 0 :: List.replicate 20 0) =
        .ok (some (DecodedAny.v2 r))) ↔
      (255 :: 255 :: 2 :: 0 :: List.replicate 20 0).length = 24) ∧
    ((255 :: 255 :: 2 :: 0 :: List.replicate 20 0).length ≠ 24 →
      decode_payload (255 :: 255 :: 2 :: 0 :: List.replicate 20 0) =
        .ok none) :=
  decode_v2_iff_len24 (255 :: 255 :: 2 :: 0 :: List.replicate 20 0)
    (by decide) (by decide)

/-- Claim C2: `decode_payload` yields a variant-4 reading exactly when
either the buffer is 25 bytes and its first little-endian 16-bit word is
the tag 0x0004 (unprefixed layout, no company-id check), or the buffer is
27 bytes, its first word is the company-id sentinel 0xFFFF and its second
word is 0x0004 (prefixed layout). -/
theorem decode_v4_iff (mfg : List Nat) :
    (∃ r, decode_payload mfg = .ok (some (DecodedAny.v4 r))) ↔
      ((mfg.length = 25 ∧ leBytes mfg 0 2 = PROTOCOL_V4) ∨
       (mfg.length = 27 ∧ leBytes mfg 0 2 = COMPANY_ID ∧
         leBytes mfg 2 2 = PROTOCOL_V4)) := by
  by_cases h25 : mfg.length = 25
  · by_cases hp : leBytes mfg 0 2 = PROTOCOL_V4
    · rw [dp_25_v4 mfg h25 hp]
      simp [h25, hp]
    · rw [dp_25_nov4 mfg h25 hp]
      have h4 : ¬ mfg.length < 4 := by omega
      constructor
      · intro ⟨r, hr⟩
        exfalso
        by_cases hc : leBytes mfg 0 2 = COMPANY_ID
        · by_cases hp4 : leBytes mfg 2 2 = PROTOCOL_V4
          · rw [dwc_v4_badlen mfg h4 hc hp4 (by omega)] at hr
            exact Option.noConfusion (Except.ok.inj hr)
          · by_cases hp2 : leBytes mfg 2 2 = PROTOCOL_V2
            · rw [dwc_v2_badlen mfg h4 hc hp2 (by omega)] at hr
              exact Option.noConfusion (Except.ok.inj hr)
            · by_cases hp3 : leBytes mfg 2 2 = PROTOCOL_V3A
              · rw [dwc_v3a_badlen mfg h4 hc hp3 (by omega)] at hr
                exact Option.noConfusion (Except.ok.inj hr)
              · rw [dwc_unknown mfg h4 hc hp2 hp3 hp4] at hr
                exact Option.noConfusion (Except.ok.inj hr)
        · rw [dwc_badco mfg h4 hc] at hr
          exact Option.noConfusion (Except.ok.inj hr)
      · intro h
        rcases h with ⟨_, hp'⟩ | ⟨hl, _⟩
        · exact absurd hp' hp
        · omega
  · have hdp : decode_payload mfg = decode_with_company mfg ∨
        decode_payload mfg = .ok none := by
      by_cases h2 : mfg.length < 2
      · exact Or.inr (dp_short mfg h2)
      · exact Or.inl (dp_other mfg h2 h25)
    constructor
    · intro ⟨r, hr⟩
      rcases hdp with hdp | hdp
      · rw [hdp] at hr
        by_cases h4 : mfg.length < 4
        · rw [dwc_short mfg h4] at hr
          exact absurd (Except.ok.inj hr) (by simp)
        · by_cases hc : leBytes mfg 0 2 = COMPANY_ID
          · by_cases hp4 : leBytes mfg 2 2 = PROTOCOL_V4
            · by_cases hl : mfg.length = 27
              · exact Or.inr ⟨hl, hc, hp4⟩
              · rw [dwc_v4_badlen mfg h4 hc hp4 hl] at hr
                exact absurd (Except.ok.inj hr) (by simp)
            · by_cases hp2 : leBytes mfg 2 2 = PROTOCOL_V2
              · by_cases hl : mfg.length = 24
                · rw [dwc_v2 mfg h4 hc hp2 hl] at hr
                  exact absurd (Except.ok.inj hr) (by simp)
                · rw [dwc_v2_badlen mfg h4 hc hp2 hl] at hr
                  exact absurd (Except.ok.inj hr) (by simp)
              · by_cases hp3 : leBytes mfg 2 2 = PROTOCOL_V3A
                · by_cases hl : mfg.length = 26
                  · rw [dwc_v3a mfg h4 hc hp3 hl] at hr
                    exact absurd (Except.ok.inj hr) (by simp)
                  · rw [dwc_v3a_badlen mfg h4 hc hp3 hl] at hr
                    exact absurd (Except.ok.inj hr) (by simp)
                · rw [dwc_unknown mfg h4 hc hp2 hp3 hp4] at hr
                  exact absurd (Except.ok.inj hr) (by simp)
          · rw [dwc_badco mfg h4 hc] at hr
            exact absurd (Except.ok.inj hr) (by simp)
      · rw [hdp] at hr
        exact absurd (Except.ok.inj hr) (by simp)
    · intro h
      rcases h with ⟨hl, _⟩ | ⟨hl, hc, hp4⟩
      · exact absurd hl h25
      · have h2 : ¬ mfg.length < 2 := by omega
        rw [dp_other mfg h2 h25, dwc_v4 mfg (by omega) hc hp4 hl]
        exact ⟨_, rfl⟩

/-! ## Pipeline helper lemmas -/

theorem dictGet_dictSet_self (d : List (String × Nat)) (s : String)
    (q : Nat) : dictGet (dictSet d s q) s = some q := by
  induction d with
  | nil => simp [dictSet, dictGet]
  | cons p rest ih =>
    obtain ⟨k, v⟩ := p
    by_cases hk : k = s
    · simp [dictSet, dictGet, hk]
    · simp [dictSet, dictGet, hk, ih]

theorem dictSet_length_le (d : List (String × Nat)) (s : String) (q : Nat) :
    (dictSet d s q).length ≤ d.length + 1 := by
  induction d with
  | nil => simp [dictSet]
  | cons p rest ih =>
    obtain ⟨k, v⟩ := p
    by_cases hk : k = s
    · simp [dictSet, hk]
    · simp only [dictSet, hk, if_false, List.length_cons]
      omega

theorem is_duplicate_iff (d : List (String × Nat)) (s : String) (q : Nat) :
    is_duplicate d s q = true ↔ dictGet d s = some q := by
  unfold is_duplicate
  cases h : dictGet d s <;> simp

theorem on_detect_accept (qm mx : Nat) (ev : AdvEvent) (st : WorkerState)
    (m : List Nat) (d : DecodedAny)
    (hmd : ev.md = some m) (hm : m ≠ []) (ha : ev.address ≠ "")
    (hdec : (decode_from_mfg_value m).1 = some d)
    (hdup : is_duplicate st.last_seq_seen ev.address d.seq = false)
    (hroom : st.queue.length < qm) :
    on_detect qm mx ev st =
      { st with
        last_seq_seen := remember_seq mx st.last_seq_seen ev.address d.seq
        queue := st.queue ++ [makeRow ev.address ev.rssi d] } := by
  unfold on_detect
  rw [hmd]
  simp only [hm, if_false, ha, hdec, hdup, Bool.false_eq_true]
  rw [if_neg (by omega : ¬ (0 < qm ∧ qm ≤ st.queue.length))]

theorem on_detect_dropped_dup (qm mx : Nat) (ev : AdvEvent)
    (st : WorkerState) (m : List Nat) (d : DecodedAny)
    (hmd : ev.md = some m) (hm : m ≠ []) (ha : ev.address ≠ "")
    (hdec : (decode_from_mfg_value m).1 = some d)
    (hdup : is_duplicate st.last_seq_seen ev.address d.seq = true) :
    on_detect qm mx ev st = st := by
  unfold on_detect
  rw [hmd]
  simp only [hm, if_false, ha, hdec, hdup, if_true]

theorem decodeOpt_sampleV4 :
    decodeOpt sampleV4 = some (DecodedAny.v4 (v4record sampleV4 0)) := by
  unfold decodeOpt
  rw [dp_25_v4 sampleV4 (by decide) (by decide)]

theorem decode_from_mfg_value_sampleV4 :
    (decode_from_mfg_value sampleV4).1 =
      some (DecodedAny.v4 (v4record sampleV4 0)) := by
  unfold decode_from_mfg_value
  rw [decodeOpt_sampleV4]

theorem sampleV4_seq : (DecodedAny.v4 (v4record sampleV4 0)).seq = 0 := by
  decide

/-! ## Claims about the ingestion pipeline -/

/-- Claim C3: two records with identical source identity and identical
sequence number submitted to the pipeline in sequence yield exactly one
accepted record — the first is enqueued, the second is dropped as a
duplicate and changes nothing (cache, queue and batch are untouched). -/
theorem dedup_two_records (qm mx : Nat) (ev ev2 : AdvEvent)
    (st : WorkerState) (m m2 : List Nat) (d d2 : DecodedAny)
    (hmd : ev.md = some m) (hm : m ≠ []) (ha : ev.address ≠ "")
    (hdec : (decode_from_mfg_value m).1 = some d)
    (hdup : is_duplicate st.last_seq_seen ev.address d.seq = false)
    (hroom : st.queue.length < qm)
    (hmd2 : ev2.md = some m2) (hm2 : m2 ≠ [])
    (ha2 : ev2.address = ev.address)
    (hdec2 : (decode_from_mfg_value m2).1 = some d2)
    (hseq : d2.seq = d.seq) :
    (on_detect qm mx ev st).queue.length = st.queue.length + 1 ∧
    on_detect qm mx ev2 (on_detect qm mx ev st) = on_detect qm mx ev st := by
  rw [on_detect_accept qm mx ev st m d hmd hm ha hdec hdup hroom]
  constructor
  · simp
  · apply on_detect_dropped_dup qm mx ev2 _ m2 d2 hmd2 hm2
      (by rw [ha2]; exact ha) hdec2
    rw [is_duplicate_iff]
    simp only [ha2, hseq]
    exact dictGet_dictSet_self _ ev.address d.seq

/-- Claim C3 witness: the all-zero V4 advertisement submitted twice to an
empty pipeline state. -/
theorem dedup_two_records_witness :
    (on_detect 10 5 sampleEvent emptyState).queue.length =
      emptyState.queue.length + 1 ∧
    on_detect 10 5 sampleEvent (on_detect 10 5 sampleEvent emptyState) =
      on_detect 10 5 sampleEvent emptyState :=
  dedup_two_records 10 5 sampleEvent sampleEvent emptyState sampleV4 sampleV4
    (DecodedAny.v4 (v4record sampleV4 0)) (DecodedAny.v4 (v4record sampleV4 0))
    rfl (by decide) (by decide)
    decode_from_mfg_value_sampleV4 (by decide) (by decide)
    rfl (by decide) rfl decode_from_mfg_value_sampleV4 rfl

/-- Claim C4 counterexample: the claim says the producer stage never
writes to the last-seen-sequence cache, but the producer callback
`on_detect` itself performs the dedup bookkeeping — processing one
decodable advertisement from an empty state changes the cache. -/
theorem producer_writes_cache :
    (on_detect 10 5 sampleEvent emptyState).last_seq_seen ≠
      emptyState.last_seq_seen := by
  decide

/-- Claim C4 (amended): the batch buffer (and flush timer) are mutated
only by the consumer stage — the producer callback never touches them —
while the last-seen-sequence cache is mutated only by the producer
callback: neither a consumer iteration nor a flush ever writes it (and a
flush never touches the queue). -/
theorem mutation_ownership (qm mx : Nat) (ev : AdvEvent) (st : WorkerState)
    (bs : Nat) (fi now : ℚ) (sink : List Row → Except String Unit)
    (force : Bool) :
    (on_detect qm mx ev st).buffer = st.buffer ∧
    (on_detect qm mx ev st).last_flush = st.last_flush ∧
    (flush_buffer_if_needed bs fi sink force now st).st.last_seq_seen =
      st.last_seq_seen ∧
    (flush_buffer_if_needed bs fi sink force now st).st.queue = st.queue ∧
    (db_writer_step bs fi sink now st).st.last_seq_seen =
      st.last_seq_seen := by
  have hflush : ∀ s : WorkerState,
      (flush_buffer_if_needed bs fi sink force now s).st.last_seq_seen =
        s.last_seq_seen ∧
      (flush_buffer_if_needed bs fi sink force now s).st.queue = s.queue := by
    intro s
    unfold flush_buffer_if_needed
    split
    · exact ⟨rfl, rfl⟩
    · split
      · exact ⟨rfl, rfl⟩
      · cases h : sink s.buffer <;> simp [h]
  have hflush' : ∀ (f : Bool) (s : WorkerState),
      (flush_buffer_if_needed bs fi sink f now s).st.last_seq_seen =
        s.last_seq_seen := by
    intro f s
    unfold flush_buffer_if_needed
    split
    · rfl
    · split
      · rfl
      · cases h : sink s.buffer <;> simp [h]
  have hdet : (on_detect qm mx ev st).buffer = st.buffer ∧
      (on_detect qm mx ev st).last_flush = st.last_flush := by
    unfold on_detect
    cases hmd : ev.md with
    | none => exact ⟨rfl, rfl⟩
    | some m =>
      dsimp only
      split
      · exact ⟨rfl, rfl⟩
      · split
        · exact ⟨rfl, rfl⟩
        · split
          · exact ⟨rfl, rfl⟩
          · split
            · exact ⟨rfl, rfl⟩
            · split
              · exact ⟨rfl, rfl⟩
              · exact ⟨rfl, rfl⟩
  refine ⟨hdet.1, hdet.2, (hflush st).1, (hflush st).2, ?_⟩
  unfold db_writer_step
  cases hq : st.queue with
  | nil => exact hflush' false st
  | cons item rest => exact hflush' false _

/-- Claim C7: when the bulk write raises during a triggered flush, the
error is caught and reported, the batch is submitted exactly once and
then discarded (no retry, no re-queueing), the buffer and flush timer
were already reset, the queue and dedup cache are untouched, and the
flush returns normally. -/
theorem flush_write_failure (bs : Nat) (fi now : ℚ)
    (sink : List Row → Except String Unit) (force : Bool)
    (st : WorkerState) (e : String)
    (hne : st.buffer ≠ [])
    (htrig : force = true ∨ bs ≤ st.buffer.length ∨
      fi ≤ now - st.last_flush)
    (herr : sink st.buffer = .error e) :
    flush_buffer_if_needed bs fi sink force now st =
      ⟨{ st with buffer := [], last_flush := now }, some st.buffer,
        some e⟩ := by
  have hcond : ¬ (force = false ∧ st.buffer.length < bs ∧
      now - st.last_flush < fi) := by
    rintro ⟨hf, hlen, htime⟩
    rcases htrig with h | h | h
    · rw [h] at hf; exact Bool.noConfusion hf
    · omega
    · linarith
  unfold flush_buffer_if_needed
  rw [if_neg hne, if_neg hcond]
  simp only [herr]

/-- Claim C7 witness: a one-row batch, a forced flush, and a sink that
always raises. -/
theorem flush_write_failure_witness :
    flush_buffer_if_needed 50 (1/2) failSink true 0
        ⟨[("AA", 0)], [], [sampleRow], 0⟩ =
      ⟨⟨[("AA", 0)], [], [], 0⟩, some [sampleRow], some "db error"⟩ :=
  flush_write_failure 50 (1/2) 0 failSink true
    ⟨[("AA", 0)], [], [sampleRow], 0⟩ "db error"
    (by simp) (Or.inl rfl) rfl

/-- Claim C8: the dedup cache never exceeds `max_seq_cache + 1` entries —
`_remember_seq` evicts the oldest entry only when the size already
strictly exceeds the maximum before inserting, so a cache within the
bound stays within it, and no eviction happens at or below the
maximum. -/
theorem cache_bound (mx : Nat) (d : List (String × Nat)) (s : String)
    (q : Nat) (hd : d.length ≤ mx + 1) :
    (remember_seq mx d s q).length ≤ mx + 1 ∧
    (d.length ≤ mx → remember_seq mx d s q = dictSet d s q) := by
  constructor
  · unfold remember_seq
    by_cases h : mx < d.length
    · rw [if_pos h]
      have h1 := dictSet_length_le d.tail s q
      have h2 : d.tail.length = d.length - 1 := by
        cases d <;> simp
      omega
    · rw [if_neg h]
      have h1 := dictSet_length_le d s q
      omega
  · intro h
    unfold remember_seq
    rw [if_neg (by omega : ¬ mx < d.length)]

/-- Claim C8 witness: a cache already at `max + 1 = 2` entries stays at
two entries after inserting a fresh key, and no eviction happens at or
below the maximum. -/
theorem cache_bound_witness :
    (remember_seq 1 [("a", 1), ("b", 2)] "c" 3).length ≤ 2 ∧
    (([("a", 1), ("b", 2)] : List (String × Nat)).length ≤ 1 →
      remember_seq 1 [("a", 1), ("b", 2)] "c" 3 =
        dictSet [("a", 1), ("b", 2)] "c" 3) :=
  cache_bound 1 [("a", 1), ("b", 2)] "c" 3 (by decide)

/-- Claim C9: duplicate detection is exact equality only — with a cached
last-seen value for the source, a record whose sequence differs (in
particular a strictly smaller, re-ordered one) is accepted and the cache
entry is overwritten with the new sequence; a record whose sequence
equals the cached value is dropped with no state change. -/
theorem dedup_exact_equality (qm mx : Nat) (ev : AdvEvent)
    (st : WorkerState) (m : List Nat) (d : DecodedAny) (prev : Nat)
    (hmd : ev.md = some m) (hm : m ≠ []) (ha : ev.address ≠ "")
    (hdec : (decode_from_mfg_value m).1 = some d)
    (hprev : dictGet st.last_seq_seen ev.address = some prev) :
    (prev ≠ d.seq →
      (on_detect qm mx ev st).last_seq_seen =
        remember_seq mx st.last_seq_seen ev.address d.seq ∧
      dictGet (on_detect qm mx ev st).last_seq_seen ev.address =
        some d.seq ∧
      (st.queue.length < qm →
        (on_detect qm mx ev st).queue =
          st.queue ++ [makeRow ev.address ev.rssi d])) ∧
    (prev = d.seq → on_detect qm mx ev st = st) := by
  constructor
  · intro hne
    have hdup : is_duplicate st.last_seq_seen ev.address d.seq = false := by
      unfold is_duplicate
      rw [hprev]
      simpa using hne
    have hcache : ∀ r : WorkerState,
        on_detect qm mx ev st = r →
        r.last_seq_seen = remember_seq mx st.last_seq_seen ev.address
          d.seq →
        (on_detect qm mx ev st).last_seq_seen =
          remember_seq mx st.last_seq_seen ev.address d.seq := by
      intro r h1 h2; rw [h1, h2]
    have hmain : (on_detect qm mx ev st).last_seq_seen =
        remember_seq mx st.last_seq_seen ev.address d.seq := by
      unfold on_detect
      rw [hmd]
      simp only [hm, if_false, ha, hdec, hdup, Bool.false_eq_true]
      split <;> rfl
    refine ⟨hmain, ?_, ?_⟩
    · rw [hmain]
      unfold remember_seq
      exact dictGet_dictSet_self _ ev.address d.seq
    · intro hroom
      rw [on_detect_accept qm mx ev st m d hmd hm ha hdec hdup hroom]
  · intro heq
    apply on_detect_dropped_dup qm mx ev st m d hmd hm ha hdec
    rw [is_duplicate_iff, hprev, heq]

/-- Claim C9 witness: cached sequence 7 for source "AA"; the all-zero V4
advertisement carries the strictly smaller sequence 0 and is accepted,
overwriting the cache entry. -/
theorem dedup_exact_equality_witness :
    (7 ≠ (DecodedAny.v4 (v4record sampleV4 0)).seq →
      (on_detect 10 5 sampleEvent
          ⟨[("AA", 7)], [], [], 0⟩).last_seq_seen =
        remember_seq 5 [("AA", 7)] "AA"
          (DecodedAny.v4 (v4record sampleV4 0)).seq ∧
      dictGet (on_detect 10 5 sampleEvent
          ⟨[("AA", 7)], [], [], 0⟩).last_seq_seen "AA" =
        some (DecodedAny.v4 (v4record sampleV4 0)).seq ∧
      (([] : List Row).length < 10 →
        (on_detect 10 5 sampleEvent ⟨[("AA", 7)], [], [], 0⟩).queue =
          [] ++ [makeRow "AA" none (DecodedAny.v4 (v4record sampleV4 0))])) ∧
    (7 = (DecodedAny.v4 (v4record sampleV4 0)).seq →
      on_detect 10 5 sampleEvent ⟨[("AA", 7)], [], [], 0⟩ =
        ⟨[("AA", 7)], [], [], 0⟩) :=
  dedup_exact_equality 10 5 sampleEvent ⟨[("AA", 7)], [], [], 0⟩ sampleV4
    (DecodedAny.v4 (v4record sampleV4 0)) 7 rfl (by decide) (by decide)
    decode_from_mfg_value_sampleV4 (by decide)

/-- Claim C10: the effective flush interval is floored at 0.05 seconds —
for every configured `flush_ms` (zero and negative included) the pipeline
flush interval and consumer wait timeout equal
`max(0.05, flush_ms / 1000)` seconds, hence never below 1/20 s, equal to
1/20 s whenever `flush_ms ≤ 50`, and equal to `flush_ms / 1000` above. -/
theorem flush_interval_floor (ms : ℤ) :
    flush_interval_of ms = max (1/20 : ℚ) ((ms : ℚ) / 1000) ∧
    (1/20 : ℚ) ≤ flush_interval_of ms ∧
    ((ms : ℚ) ≤ 50 → flush_interval_of ms = 1/20) ∧
    (50 ≤ (ms : ℚ) → flush_interval_of ms = (ms : ℚ) / 1000) := by
  have h5 : (0.05 : ℚ) = 1/20 := by norm_num
  unfold flush_interval_of
  rw [h5]
  refine ⟨rfl, le_max_left _ _, ?_, ?_⟩
  · intro h
    rw [max_eq_left (by linarith : (ms : ℚ) / 1000 ≤ 1/20)]
  · intro h
    rw [max_eq_right (by linarith : (1/20 : ℚ) ≤ (ms : ℚ) / 1000)]

/-- Claim C10 witness: a configured 10 ms flush interval is floored to
1/20 s. -/
theorem flush_interval_floor_witness : flush_interval_of 10 = 1/20 :=
  (flush_interval_floor 10).2.2.1 (by norm_num)

/-! ## Battery curve monotonicity -/

theorem lastD_le (b : ℚ × ℚ) (M : List (ℚ × ℚ)) (h : DescChain (b :: M)) :
    (lastD b M).1 ≤ b.1 ∧ (lastD b M).2 ≤ b.2 := by
  induction M generalizing b with
  | nil => exact ⟨le_refl _, le_refl _⟩
  | cons c M' ih =>
    simp only [DescChain] at h
    obtain ⟨h1, h2, h3⟩ := h
    have hc := ih c h3
    exact ⟨le_trans hc.1 (le_of_lt h1), le_trans hc.2 h2⟩

theorem lerp_bounds (av ap bv bp v : ℚ) (hv : bv < av) (hp : bp ≤ ap)
    (h1 : bv ≤ v) (h2 : v ≤ av) :
    bp ≤ lerpQ ap bp ((av - v) / (av - bv)) ∧
    lerpQ ap bp ((av - v) / (av - bv)) ≤ ap := by
  have hd : 0 < av - bv := by linarith
  have ht0 : 0 ≤ (av - v) / (av - bv) := div_nonneg (by linarith) hd.le
  have ht1 : (av - v) / (av - bv) ≤ 1 := by
    rw [div_le_one hd]; linarith
  have e1 : 0 ≤ (ap - bp) * (1 - (av - v) / (av - bv)) :=
    mul_nonneg (by linarith) (by linarith)
  have e2 : 0 ≤ (ap - bp) * ((av - v) / (av - bv)) :=
    mul_nonneg (by linarith) ht0
  unfold lerpQ
  constructor <;> nlinarith [e1, e2]

theorem lerp_mono_seg (av ap bv bp v1 v2 : ℚ) (hv : bv < av)
    (hp : bp ≤ ap) (h12 : v1 ≤ v2) :
    lerpQ ap bp ((av - v1) / (av - bv)) ≤
      lerpQ ap bp ((av - v2) / (av - bv)) := by
  have hd : 0 < av - bv := by linarith
  have key : (av - v2) / (av - bv) ≤ (av - v1) / (av - bv) :=
    (div_le_div_iff_of_pos_right hd).mpr (by linarith)
  unfold lerpQ
  nlinarith [mul_nonneg (sub_nonneg.mpr hp) (sub_nonneg.mpr key)]

theorem scan_bounds (L : List (ℚ × ℚ)) (a : ℚ × ℚ) (v : ℚ)
    (hch : DescChain (a :: L)) (hne : L ≠ [])
    (hlo : (lastD a L).1 ≤ v) (hhi : v ≤ a.1) :
    ∃ pf, curveScan (a :: L) v = some pf ∧
      (lastD a L).2 ≤ pf ∧ pf ≤ a.2 := by
  induction L generalizing a with
  | nil => exact absurd rfl hne
  | cons b rest ih =>
    simp only [DescChain] at hch
    obtain ⟨hv, hp, hch'⟩ := hch
    cases rest with
    | nil =>
      have hb : b.1 ≤ v := hlo
      have hseg : v ≤ a.1 ∧ b.1 ≤ v := ⟨hhi, hb⟩
      refine ⟨lerpQ a.2 b.2 ((a.1 - v) / (a.1 - b.1)), ?_, ?_, ?_⟩
      · unfold curveScan
        rw [if_pos hseg]
      · exact (lerp_bounds a.1 a.2 b.1 b.2 v hv hp hb hhi).1
      · exact (lerp_bounds a.1 a.2 b.1 b.2 v hv hp hb hhi).2
    | cons c rest' =>
      by_cases hseg : v ≤ a.1 ∧ b.1 ≤ v
      · refine ⟨lerpQ a.2 b.2 ((a.1 - v) / (a.1 - b.1)), ?_, ?_, ?_⟩
        · unfold curveScan
          rw [if_pos hseg]
        · have hl := (lastD_le b (c :: rest') hch').2
          have hlb := (lerp_bounds a.1 a.2 b.1 b.2 v hv hp hseg.2 hseg.1).1
          exact le_trans hl hlb
        · exact (lerp_bounds a.1 a.2 b.1 b.2 v hv hp hseg.2 hseg.1).2
      · have hvb : v ≤ b.1 := by
          rcases not_and_or.mp hseg with h | h
          · exact absurd hhi h
          · push_neg at h
            exact le_of_lt h
        obtain ⟨pf, h1, h2, h3⟩ := ih b hch' (by simp) hlo hvb
        refine ⟨pf, ?_, h2, le_trans h3 hp⟩
        unfold curveScan
        rw [if_neg hseg]
        exact h1

theorem scan_mono (L : List (ℚ × ℚ)) (a : ℚ × ℚ) (v1 v2 p1 p2 : ℚ)
    (hch : DescChain (a :: L)) (hne : L ≠ [])
    (hlo : (lastD a L).1 ≤ v1) (h12 : v1 ≤ v2) (hhi : v2 ≤ a.1)
    (h1 : curveScan (a :: L) v1 = some p1)
    (h2 : curveScan (a :: L) v2 = some p2) : p1 ≤ p2 := by
  induction L generalizing a with
  | nil => exact absurd rfl hne
  | cons b rest ih =>
    simp only [DescChain] at hch
    obtain ⟨hv, hp, hch'⟩ := hch
    by_cases hseg2 : v2 ≤ a.1 ∧ b.1 ≤ v2
    · unfold curveScan at h2
      rw [if_pos hseg2] at h2
      by_cases hseg1 : v1 ≤ a.1 ∧ b.1 ≤ v1
      · unfold curveScan at h1
        rw [if_pos hseg1] at h1
        have hm := lerp_mono_seg a.1 a.2 b.1 b.2 v1 v2 hv hp h12
        rw [← Option.some.inj h1, ← Option.some.inj h2]
        exact hm
      · cases rest with
        | nil => exact absurd ⟨le_trans h12 hhi, hlo⟩ hseg1
        | cons c rest' =>
          have hv1b : v1 ≤ b.1 := by
            rcases not_and_or.mp hseg1 with h | h
            · exact absurd (le_trans h12 hhi) h
            · push_neg at h
              exact le_of_lt h
          unfold curveScan at h1
          rw [if_neg hseg1] at h1
          obtain ⟨pf, hpf, _, hpf3⟩ :=
            scan_bounds (c :: rest') b v1 hch' (by simp) hlo hv1b
          have hpp : pf = p1 := by
            rw [h1] at hpf
            exact (Option.some.inj hpf).symm
          have hlerp := (lerp_bounds a.1 a.2 b.1 b.2 v2 hv hp
            hseg2.2 hseg2.1).1
          rw [← hpp, ← Option.some.inj h2]
          exact le_trans hpf3 hlerp
    · have hv2b : v2 ≤ b.1 := by
        rcases not_and_or.mp hseg2 with h | h
        · exact absurd hhi h
        · push_neg at h
          exact le_of_lt h
      cases rest with
      | nil =>
        exact absurd ⟨hhi, le_trans hlo h12⟩ hseg2
      | cons c rest' =>
        have hseg1 : ¬ (v1 ≤ a.1 ∧ b.1 ≤ v1) := by
          rintro ⟨_, hb⟩
          exact hseg2 ⟨hhi, le_trans hb h12⟩
        unfold curveScan at h1 h2
        rw [if_neg hseg1] at h1
        rw [if_neg hseg2] at h2
        exact ih b hch' (by simp) hlo hv2b h1 h2

theorem pytrunc_mono (q1 q2 : ℚ) (h : q1 ≤ q2) :
    pytrunc q1 ≤ pytrunc q2 := by
  unfold pytrunc
  by_cases h1 : 0 ≤ q1
  · rw [if_pos h1, if_pos (le_trans h1 h)]
    exact Int.floor_le_floor h
  · rw [if_neg h1]
    by_cases h2 : 0 ≤ q2
    · rw [if_pos h2]
      have hc : ⌈q1⌉ ≤ 0 := Int.ceil_le.mpr (by push_cast; linarith)
      have hf : (0 : ℤ) ≤ ⌊q2⌋ := Int.floor_nonneg.mpr h2
      omega
    · rw [if_neg h2]
      exact Int.ceil_le_ceil h

theorem voltage_to_percent_eq_of_scan (v pf : ℚ) (hv1 : 3.20 ≤ v)
    (hv2 : v ≤ 4.20) (hs : curveScan _CURVE v = some pf) :
    voltage_to_percent v = max 0 (min 100 (pytrunc (pf + 0.5))) := by
  have hcl : clamp v 3.20 4.20 = v := by
    unfold clamp
    rw [min_eq_right hv2, max_eq_right hv1]
  unfold voltage_to_percent
  simp only [hcl, hs]

/-- Claim C6: the battery curve mapper is monotone — for voltages
`v1 < v2` both in `[3.20, 4.20]`, the bracketing-segment linear
interpolation over the 13-anchor table, followed by round-half-up
(Python `int(pf + 0.5)`) and clamping to `[0, 100]`, satisfies
`voltage_to_percent v1 ≤ voltage_to_percent v2`. -/
theorem voltage_to_percent_mono (v1 v2 : ℚ) (h1 : 3.20 ≤ v1)
    (h12 : v1 < v2) (h2 : v2 ≤ 4.20) :
    voltage_to_percent v1 ≤ voltage_to_percent v2 := by
  have hch : DescChain _CURVE := by norm_num [DescChain, _CURVE]
  obtain ⟨p1, hs1, _, _⟩ := scan_bounds
    [(4.10, 90), (4.00, 80), (3.92, 70), (3.85, 60), (3.79, 50),
      (3.74, 40), (3.70, 30), (3.65, 20), (3.55, 10), (3.40, 5),
      (3.30, 2), (3.20, 0)] (4.20, 100) v1 hch (by simp) h1
    (by exact le_of_lt (lt_of_lt_of_le h12 h2))
  obtain ⟨p2, hs2, _, _⟩ := scan_bounds
    [(4.10, 90), (4.00, 80), (3.92, 70), (3.85, 60), (3.79, 50),
      (3.74, 40), (3.70, 30), (3.65, 20), (3.55, 10), (3.40, 5),
      (3.30, 2), (3.20, 0)] (4.20, 100) v2 hch (by simp)
    (by exact le_of_lt (lt_of_le_of_lt h1 h12)) (by exact h2)
  have hpm := scan_mono
    [(4.10, 90), (4.00, 80), (3.92, 70), (3.85, 60), (3.79, 50),
      (3.74, 40), (3.70, 30), (3.65, 20), (3.55, 10), (3.40, 5),
      (3.30, 2), (3.20, 0)] (4.20, 100) v1 v2 p1 p2 hch (by simp) h1
    (le_of_lt h12) (by exact h2) hs1 hs2
  rw [voltage_to_percent_eq_of_scan v1 p1 h1
      (le_of_lt (lt_of_lt_of_le h12 h2)) hs1,
    voltage_to_percent_eq_of_scan v2 p2 (le_of_lt (lt_of_le_of_lt h1 h12))
      h2 hs2]
  exact max_le_max (le_refl 0)
    (min_le_min (le_refl 100) (pytrunc_mono _ _ (by linarith)))

/-- Claim C6 witness: 3.5 V maps to no more than 3.6 V does. -/
theorem voltage_to_percent_mono_witness :
    voltage_to_percent (7/2) ≤ voltage_to_percent (18/5) :=
  voltage_to_percent_mono (7/2) (18/5) (by norm_num) (by norm_num)
    (by norm_num)
